import Mathlib

/-!
Verification development for the Istio pilot configuration plane
(route compiler, typed config store queries, ADS stream state machine).

The Go sources are embedded shallowly:
* pure functions become Lean functions;
* Go maps become association lists iterated in insertion order (the Go
  iteration order is unspecified; none of the properties below depend on it
  except through concrete single-key inputs);
* in-place mutation of caller-owned slices / shared protobuf messages is
  made explicit by returning the post-state alongside the result;
* `(T, bool)` / `(T, error)` returns become `Option` / `Except`.

Helpers that live in files of the repository not included in the sources
(`model/service.go`: hostname matching and ordering, label algebra, port
lookup, subset keys) are modelled from the specification's words; each such
definition carries a doc comment starting with `Modelled from the spec:`.
-/

/-! ## Label algebra (model/service.go, not in the sources) -/

/-- Go `map[string]string`, as an association list. -/
abbrev Labels := List (String × String)

/-- A collection of label sets (`model.LabelsCollection`). -/
abbrev LabelsCollection := List Labels

/-- Modelled from the spec: `Labels.SubsetOf(other)` is the pointwise
inclusion test (every key/value pair of `l` appears in `that`);
`model/service.go` is not among the sources. -/
def Labels.subsetOf (l that : Labels) : Bool :=
  l.all (fun kv => that.lookup kv.1 == some kv.2)

/-- Modelled from the spec: `LabelsCollection.IsSupersetOf(selector)` returns
true iff some labels map in the collection contains every key/value of the
selector; `model/service.go` is not among the sources. -/
def LabelsCollection.isSupersetOf (c : LabelsCollection) (selector : Labels) : Bool :=
  c.any (fun lbl => selector.subsetOf lbl)

/-! ## Ports and services (model/service.go, not in the sources) -/

/-- Embeds `model.Port`: a named service port with a protocol. -/
structure Port where
  name : String := ""
  port : Nat := 0
  protocol : String := ""
  deriving DecidableEq, Repr

/-- Modelled from the spec: a port is HTTP-compatible when its protocol is
one of the HTTP-like protocols (HTTP, HTTP2, GRPC); `Protocol.IsHTTP` is in
`model/service.go`, not among the sources. -/
def isHTTPProtocol (p : String) : Bool :=
  p == "HTTP" || p == "HTTP2" || p == "GRPC"

/-- Embeds `model.PortList`. -/
abbrev PortList := List Port

/-- Modelled from the spec: `PortList.Get(name)` finds a port by name
(ports are unique by name); `model/service.go` is not among the sources. -/
def PortList.get (pl : PortList) (name : String) : Option Port :=
  pl.find? (fun p => p.name == name)

/-- Modelled from the spec: `PortList.GetByPort(number)` finds a port by
number (ports are unique by number); `model/service.go` is not among the
sources. -/
def PortList.getByPort (pl : PortList) (num : Nat) : Option Port :=
  pl.find? (fun p => p.port == num)

/-- Embeds `model.Service`, restricted to the fields the route compiler reads. -/
structure Service where
  hostname : String := ""
  ports : PortList := []
  deriving DecidableEq, Repr

/-- The service index `map[string]*model.Service` (FQDN → service). -/
abbrev ServiceIndex := List (String × Service)

/-- Modelled from the spec: the outbound traffic direction tag used in
subset keys. -/
def TrafficDirectionOutbound : String := "outbound"

/-- Modelled from the spec: `BuildSubsetKey` composes the subset key
`direction|subset|host|port` (`model/service.go` is not among the
sources). -/
def BuildSubsetKey (direction subset hostname : String) (port : Port) : String :=
  direction ++ "|" ++ subset ++ "|" ++ hostname ++ "|" ++ toString port.port

/-- Modelled from the spec: the well-known blackhole cluster name
(`networking/util`, not among the sources): a sentinel cluster that drops
requests, used when resolution fails. -/
def BlackHoleCluster : String := "BlackHoleCluster"

/-! ## networking/v1alpha3 API shapes (istio.io/api, read by the sources) -/

/-- Embeds `networking.PortSelector`: oneof name / number. -/
inductive PortSel where
  | byName (name : String)
  | byNumber (number : Nat)
  deriving DecidableEq, Repr

/-- Embeds `networking.Destination`. -/
structure Destination where
  host : String := ""
  subset : String := ""
  port : Option PortSel := none
  deriving DecidableEq, Repr

/-- Embeds `networking.DestinationWeight` (weight is an `int32`). -/
structure DestinationWeight where
  destination : Destination := {}
  weight : Int := 0
  deriving DecidableEq, Repr

/-- Embeds `networking.StringMatch`: oneof exact / prefix / regex. -/
inductive StringMatchT where
  | exact (s : String)
  | pfx (s : String)
  | regex (s : String)
  deriving DecidableEq, Repr

/-- Embeds `networking.HTTPMatchRequest`, with the headers map as an association
list. A zero `port` means the match does not pin a port (proto3 default). -/
structure HTTPMatchRequest where
  uri : Option StringMatchT := none
  scheme : Option StringMatchT := none
  method : Option StringMatchT := none
  authority : Option StringMatchT := none
  headers : List (String × StringMatchT) := []
  port : Nat := 0
  sourceLabels : Labels := []
  gateways : List String := []
  deriving DecidableEq, Repr

/-- Embeds `networking.HTTPRedirect`. -/
structure HTTPRedirect where
  uri : String := ""
  authority : String := ""
  deriving DecidableEq, Repr

/-- Embeds `networking.HTTPRewrite`. -/
structure HTTPRewrite where
  uri : String := ""
  authority : String := ""
  deriving DecidableEq, Repr

/-- Embeds `networking.HTTPRetry` (durations in nanoseconds; a missing
`PerTryTimeout` converts to the zero duration). -/
structure HTTPRetry where
  attempts : Int := 0
  perTryTimeout : Option Nat := none
  deriving DecidableEq, Repr

/-- Embeds `networking.CorsPolicy`. -/
structure CorsPolicy where
  allowOrigin : List String := []
  allowMethods : List String := []
  allowHeaders : List String := []
  exposeHeaders : List String := []
  maxAge : Option String := none
  allowCredentials : Option Bool := none
  deriving DecidableEq, Repr

/-- Embeds `networking.HTTPRoute`, with the `AppendHeaders` map as an association
list. -/
structure HTTPRoute where
  matchList : List HTTPMatchRequest := []
  route : List DestinationWeight := []
  redirect : Option HTTPRedirect := none
  rewrite : Option HTTPRewrite := none
  timeout : Option Nat := none
  retries : Option HTTPRetry := none
  mirror : Option Destination := none
  corsPolicy : Option CorsPolicy := none
  appendHeaders : List (String × String) := []
  websocketUpgrade : Bool := false
  deriving DecidableEq, Repr

/-- Embeds `networking.L4MatchAttributes`, restricted to the field read by
`VirtualServices`. -/
structure L4MatchAttributes where
  gateways : List String := []
  deriving DecidableEq, Repr

/-- Embeds `networking.RouteDestination` (TCP). -/
structure RouteDestination where
  destination : Destination := {}
  weight : Int := 0
  deriving DecidableEq, Repr

/-- Embeds `networking.TCPRoute`, restricted to the fields read by
`VirtualServices`. -/
structure TCPRoute where
  matchList : List L4MatchAttributes := []
  route : List RouteDestination := []
  deriving DecidableEq, Repr

/-- Embeds `networking.VirtualService` spec payload. -/
structure VirtualServiceSpec where
  hosts : List String := []
  gateways : List String := []
  http : List HTTPRoute := []
  tcp : List TCPRoute := []
  deriving DecidableEq, Repr

/-! ## Config metadata and payloads (model/config.go) -/

/-- Embeds `model.ConfigMeta`, restricted to the fields the embedded queries
read. `ns` stands for the Go `Namespace` field. -/
structure ConfigMeta where
  ctype : String := ""
  name : String := ""
  ns : String := ""
  domain : String := ""
  deriving DecidableEq, Repr

/-- The typed payload held by `Config.Spec`. The Go code stores a
`proto.Message` and downcasts; a payload of the wrong kind makes the
downcast fail. -/
inductive SpecPayload where
  | vs (rule : VirtualServiceSpec)
  | other
  deriving DecidableEq, Repr

/-- Embeds `model.Config`: metadata plus spec payload. -/
structure Config where
  meta : ConfigMeta := {}
  spec : SpecPayload := .other
  deriving DecidableEq, Repr

/-! ## Envoy route shapes (go-control-plane, written by the sources) -/

/-- Envoy `RouteMatch` path specifier: oneof prefix / path / regex. -/
inductive PathSpec where
  | pfx (s : String)
  | path (s : String)
  | regex (s : String)
  deriving DecidableEq, Repr

/-- Envoy `HeaderMatcher`. -/
structure HeaderMatcher where
  name : String := ""
  value : String := ""
  regex : Bool := false
  deriving DecidableEq, Repr

/-- Envoy `RouteMatch`. -/
structure RouteMatch where
  pathSpec : PathSpec := .pfx "/"
  headers : List HeaderMatcher := []
  deriving DecidableEq, Repr

/-- Envoy `RouteAction_RetryPolicy`. -/
structure RetryPolicy where
  numRetries : Nat := 0
  retryOn : String := ""
  perTryTimeout : Nat := 0
  deriving DecidableEq, Repr

/-- Envoy `CorsPolicy` on a route action. -/
structure EnvoyCorsPolicy where
  allowOrigin : List String := []
  enabled : Bool := false
  allowCredentials : Option Bool := none
  allowHeaders : String := ""
  allowMethods : String := ""
  exposeHeaders : String := ""
  maxAge : String := ""
  deriving DecidableEq, Repr

/-- Envoy cluster specifier: oneof direct cluster / weighted clusters
(cluster name paired with its `uint32` weight). -/
inductive ClusterSpec where
  | cluster (name : String)
  | weighted (clusters : List (String × Nat))
  deriving DecidableEq, Repr

/-- Envoy `HeaderValueOption` (a request header to append). -/
structure HeaderValueOption where
  key : String := ""
  value : String := ""
  deriving DecidableEq, Repr

/-- Envoy `RouteAction`, restricted to the fields `translateRoute`
writes. `pfxRewrite` stands for Envoy's `PrefixRewrite` field. -/
structure RouteAction where
  cors : Option EnvoyCorsPolicy := none
  retryPolicy : Option RetryPolicy := none
  useWebsocket : Bool := false
  timeout : Option Nat := none
  pfxRewrite : String := ""
  hostRewrite : String := ""
  requestHeadersToAdd : List HeaderValueOption := []
  requestMirrorCluster : Option String := none
  clusterSpec : ClusterSpec := .cluster ""
  deriving DecidableEq, Repr

/-- Envoy route action: oneof redirect / route. -/
inductive RouteActionT where
  | redirect (hostRedirect pathRedirect : String)
  | routeAction (a : RouteAction)
  deriving DecidableEq, Repr

/-- Envoy `route.Route`: match, decorator operation, and action. -/
structure EnvoyRoute where
  rMatch : RouteMatch := {}
  operation : String := ""
  action : RouteActionT := .routeAction {}
  deriving DecidableEq, Repr

/-! ## Route translation (networking/core/v1alpha3/route/route.go) -/

/-- Characters Go's `regexp.QuoteMeta` escapes. -/
def isRegexSpecial (c : Char) : Bool :=
  "\\.+*?()|[]\x7b\x7d^$".toList.contains c

/-- Go `regexp.QuoteMeta`: escape every regex metacharacter with a
backslash. -/
def quoteMeta (s : String) : String :=
  String.mk (s.toList.foldr
    (fun c acc => if isRegexSpecial c then '\\' :: c :: acc else c :: acc) [])

/-- Embeds `translateHeaderMatch` (route.go): translate a `StringMatch` on a named
header to an Envoy `HeaderMatcher`; prefix matches become anchored
regexes. -/
def translateHeaderMatch (name : String) (sm : StringMatchT) : HeaderMatcher :=
  match sm with
  | .exact s => { name := name, value := s }
  | .pfx s => { name := name, value := "^" ++ quoteMeta s ++ ".*", regex := true }
  | .regex s => { name := name, value := s, regex := true }

/-- Lexicographic strict comparison on char lists (Go's `<` on strings;
the built-in `String` order does not reduce in the kernel). -/
def charListLt : List Char → List Char → Bool
  | [], [] => false
  | [], _ :: _ => true
  | _ :: _, [] => false
  | a :: as, b :: bs =>
    if a.toNat < b.toNat then true
    else if b.toNat < a.toNat then false
    else charListLt as bs

/-- Go `<` on strings. -/
def strLt (a b : String) : Bool := charListLt a.data b.data

/-- The comparison used by route.go's `sort.Slice` over header matchers:
by name, then by value (taken non-strictly so that sortedness is a total
relation; header names coming from a Go map are pairwise distinct, so the
sorted order is the one the strict Go comparator produces). -/
def headerMatcherLE (a b : HeaderMatcher) : Bool :=
  if a.name == b.name then strLt a.value b.value || a.value == b.value
  else strLt a.name b.name

/-- Embeds `translateRouteMatch` (route.go): named-header matchers are sorted for
determinism; the synthetic `:method` / `:authority` / `:scheme` matchers are
appended after the sort, exactly as the Go code does. -/
def translateRouteMatch (m : Option HTTPMatchRequest) : RouteMatch :=
  match m with
  | none => { pathSpec := .pfx "/" }
  | some i =>
    let hdrs := i.headers.map (fun kv => translateHeaderMatch kv.1 kv.2)
    let hdrs := hdrs.insertionSort (fun a b => headerMatcherLE a b)
    let ps : PathSpec :=
      match i.uri with
      | none => .pfx "/"
      | some (.exact s) => .path s
      | some (.pfx s) => .pfx s
      | some (.regex s) => .regex s
    let hdrs := hdrs ++ (match i.method with
      | some sm => [translateHeaderMatch ":method" sm]
      | none => [])
    let hdrs := hdrs ++ (match i.authority with
      | some sm => [translateHeaderMatch ":authority" sm]
      | none => [])
    let hdrs := hdrs ++ (match i.scheme with
      | some sm => [translateHeaderMatch ":scheme" sm]
      | none => [])
    { pathSpec := ps, headers := hdrs }

/-- Embeds `translateRetryPolicy` (route.go): only `attempts > 0` yields a policy,
with retry-on `5xx,connect-failure,refused-stream`. -/
def translateRetryPolicy (i : Option HTTPRetry) : Option RetryPolicy :=
  match i with
  | some r =>
    if r.attempts > 0 then
      some { numRetries := (r.attempts.emod 4294967296).toNat,
             retryOn := "5xx,connect-failure,refused-stream",
             perTryTimeout := r.perTryTimeout.getD 0 }
    else none
  | none => none

/-- Embeds `translateCORSPolicy` (route.go). -/
def translateCORSPolicy (i : Option CorsPolicy) : Option EnvoyCorsPolicy :=
  match i with
  | none => none
  | some c =>
    some { allowOrigin := c.allowOrigin
           enabled := true
           allowCredentials := c.allowCredentials
           allowHeaders := String.intercalate "," c.allowHeaders
           allowMethods := String.intercalate "," c.allowMethods
           exposeHeaders := String.intercalate "," c.exposeHeaders
           maxAge := c.maxAge.getD "" }

/-- Embeds `sourceMatchHTTP` (route.go): a nil match passes; a match listing
gateways passes iff one of them is a known gateway name; otherwise the
proxy labels must be a superset of the match's source labels. -/
def sourceMatchHTTP (m : Option HTTPMatchRequest) (proxyLabels : LabelsCollection)
    (gatewayNames : List String) : Bool :=
  match m with
  | none => true
  | some mm =>
    if mm.gateways.length > 0 then
      mm.gateways.any (fun g => gatewayNames.contains g)
    else
      proxyLabels.isSupersetOf mm.sourceLabels

/-- The service port selected by `ConvertDestinationToCluster`: the port
pinned by the destination (by name or by number), or else the default
port. -/
def resolvedSvcPort (svc : Service) (d : Destination) (defaultPort : Nat) : Option Port :=
  match d.port with
  | some (.byName n) => svc.ports.get n
  | some (.byNumber num) => svc.ports.getByPort num
  | none => svc.ports.getByPort defaultPort

/-- Embeds `ConvertDestinationToCluster` (route.go). The `vsvcName` and `rule`
parameters only feed metrics and logs in Go and are dropped here. -/
def ConvertDestinationToCluster (d : Destination) (serviceIndex : ServiceIndex)
    (defaultPort : Nat) : String :=
  match serviceIndex.lookup d.host with
  | none => BlackHoleCluster
  | some svc =>
    match resolvedSvcPort svc d defaultPort with
    | none => BlackHoleCluster
    | some p => BuildSubsetKey TrafficDirectionOutbound d.subset svc.hostname p

/-- The `uint32` weight emitted for a destination: weight 0 is normalized
to 100, other `int32` weights pass through the Go `uint32` conversion. -/
def normWeight (w : Int) : Nat :=
  if w == 0 then 100 else (w.emod 4294967296).toNat

/-- The route action built by `translateRoute` (route.go) when the rule
has no redirect: CORS, retry, websocket, timeout, rewrite, appended
headers, mirror, then the weighted destination set, collapsed to a direct
cluster reference when it has exactly one entry. -/
def routeActionOf (i : HTTPRoute) (port : Nat) (serviceIndex : ServiceIndex) : RouteAction :=
  let a : RouteAction :=
    { cors := translateCORSPolicy i.corsPolicy
      retryPolicy := translateRetryPolicy i.retries
      useWebsocket := i.websocketUpgrade
      timeout := i.timeout }
  let a := match i.rewrite with
    | some rw => { a with pfxRewrite := rw.uri, hostRewrite := rw.authority }
    | none => a
  let a := if i.appendHeaders.length > 0 then
      { a with requestHeadersToAdd :=
          i.appendHeaders.map (fun kv => { key := kv.1, value := kv.2 }) }
    else a
  let a := match i.mirror with
    | some mr =>
      { a with requestMirrorCluster := some (ConvertDestinationToCluster mr serviceIndex port) }
    | none => a
  let weighted := i.route.map (fun dst =>
    (ConvertDestinationToCluster dst.destination serviceIndex port,
     normWeight dst.weight))
  match weighted with
  | [w] => { a with clusterSpec := .cluster w.1 }
  | ws => { a with clusterSpec := .weighted ws }

/-- The unconditional part of `translateRoute` (route.go): the route built
once the source and port guards have passed; redirect takes precedence
over the route action. -/
def buildRoute (i : HTTPRoute) (m : Option HTTPMatchRequest) (port : Nat)
    (operation : String) (serviceIndex : ServiceIndex) : EnvoyRoute :=
  let act : RouteActionT :=
    match i.redirect with
    | some r => .redirect r.authority r.uri
    | none => .routeAction (routeActionOf i port serviceIndex)
  { rMatch := translateRouteMatch m, operation := operation, action := act }

/-- Embeds `translateRoute` (route.go): nil when the source guard or the pinned
destination port guard fails, otherwise the built route. -/
def translateRoute (i : HTTPRoute) (m : Option HTTPMatchRequest) (port : Nat)
    (operation : String) (serviceIndex : ServiceIndex)
    (proxyLabels : LabelsCollection) (gatewayNames : List String) : Option EnvoyRoute :=
  if !sourceMatchHTTP m proxyLabels gatewayNames then none
  else if (match m with
           | some mm => mm.port != 0 && mm.port != port
           | none => false) then none
  else some (buildRoute i m port operation serviceIndex)

/-- The rule loop of `TranslateRoutes` (route.go): a rule without match
clauses contributes its (always matching) catch-all route and breaks out of
the loop; a rule with clauses contributes one route per clause that
`translateRoute` accepts. -/
def translateRoutesLoop (rules : List HTTPRoute) (port : Nat) (operation : String)
    (serviceIndex : ServiceIndex) (proxyLabels : LabelsCollection)
    (gatewayNames : List String) : List EnvoyRoute :=
  match rules with
  | [] => []
  | http :: rest =>
    if http.matchList.isEmpty then
      (translateRoute http none port operation serviceIndex proxyLabels gatewayNames).toList
    else
      http.matchList.filterMap
        (fun m => translateRoute http (some m) port operation serviceIndex proxyLabels gatewayNames)
      ++ translateRoutesLoop rest port operation serviceIndex proxyLabels gatewayNames

/-- Embeds `TranslateRoutes` (route.go): errors when the config is not a virtual
service or when no route matched. -/
def TranslateRoutes (virtualService : Config) (serviceIndex : ServiceIndex)
    (port : Nat) (proxyLabels : LabelsCollection) (gatewayNames : List String) :
    Except String (List EnvoyRoute) :=
  match virtualService.spec with
  | .other => .error "in not a virtual service"
  | .vs rule =>
    let operation := virtualService.meta.name
    let out := translateRoutesLoop rule.http port operation serviceIndex proxyLabels gatewayNames
    if out.isEmpty then .error "no routes matched" else .ok out

/-- Embeds `BuildDefaultHTTPRoute` (route.go): catch-all route to a fixed cluster,
decorated `default-route`. -/
def BuildDefaultHTTPRoute (clusterName : String) : EnvoyRoute :=
  { rMatch := translateRouteMatch none
    operation := "default-route"
    action := .routeAction { clusterSpec := .cluster clusterName } }

/-! ## Virtual host construction (route.go) -/

/-- Embeds `GuardedHost` (route.go): a virtual host entry at a port. Its Go zero
value is the default value of every field. -/
structure GuardedHost where
  port : Nat := 0
  services : List Service := []
  hosts : List String := []
  routes : List EnvoyRoute := []
  deriving DecidableEq, Repr

/-- Embeds `matchServiceHosts` (route.go): split virtual-service hosts into
literal hosts and hosts with a matching registered service. -/
def matchServiceHosts (rule : VirtualServiceSpec) (serviceIndex : ServiceIndex) :
    List String × List Service :=
  (rule.hosts.filter (fun h => (serviceIndex.lookup h).isNone),
   rule.hosts.filterMap (fun h => serviceIndex.lookup h))

/-- Insert-or-append into the `serviceByPort` association list, preserving
first-insertion key order (the shallow model of the Go map build-up). -/
def upsertAppend (m : List (Nat × List Service)) (k : Nat) (v : Service) :
    List (Nat × List Service) :=
  match m with
  | [] => [(k, [v])]
  | (k', vs) :: rest =>
    if k' = k then (k', vs ++ [v]) :: rest else (k', vs) :: upsertAppend rest k v

/-- The `serviceByPort` map of `translateVirtualHost`: matched services
grouped by HTTP-compatible port. -/
def serviceByPort (services : List Service) : List (Nat × List Service) :=
  services.foldl
    (fun m svc => svc.ports.foldl
      (fun m p => if isHTTPProtocol p.protocol then upsertAppend m p.port svc else m) m)
    []

/-- Embeds `translateVirtualHost` (route.go). The Go code allocates
`make([]GuardedHost, len(serviceByPort))` — a slice already holding
`len(serviceByPort)` zero-valued entries — and then appends to it, so the
zero-valued entries stay in the result. -/
def translateVirtualHost (c : Config) (serviceIndex : ServiceIndex)
    (proxyLabels : LabelsCollection) (gatewayNames : List String) : List GuardedHost :=
  let rule := match c.spec with
    | .vs r => r
    | .other => {}
  let (hosts, services) := matchServiceHosts rule serviceIndex
  let byPort := serviceByPort services
  let byPort := if byPort.isEmpty then [(80, [])] else byPort
  List.replicate byPort.length {} ++
    byPort.filterMap (fun kv =>
      match TranslateRoutes c serviceIndex kv.1 proxyLabels gatewayNames with
      | .error _ => none
      | .ok routes =>
        if routes.isEmpty then none
        else some { port := kv.1, services := kv.2, hosts := hosts, routes := routes })

/-- Embeds `TranslateVirtualHosts` (route.go): translate every config, then append
a default catch-all vhost for each HTTP port of every service not covered
by any virtual service. -/
def TranslateVirtualHosts (serviceConfigs : List Config) (services : ServiceIndex)
    (proxyLabels : LabelsCollection) (gatewayNames : List String) : List GuardedHost :=
  let out := (serviceConfigs.map
    (fun c => translateVirtualHost c services proxyLabels gatewayNames)).flatten
  let covered := (out.map (fun h => h.services.map (fun s => s.hostname))).flatten
  let missing := services.filter (fun kv => !covered.contains kv.1)
  out ++ (missing.map (fun kv =>
    kv.2.ports.filterMap (fun p =>
      if isHTTPProtocol p.protocol then
        some { port := p.port
               services := [kv.2]
               hosts := []
               routes := [BuildDefaultHTTPRoute
                 (BuildSubsetKey TrafficDirectionOutbound "" kv.2.hostname p)] }
      else none))).flatten

/-! ## Hostname algebra (model/config.go + model/service.go) -/

/-- Embeds `model.Hostname`: a possibly wildcarded DNS name. -/
abbrev Hostname := String

/-- Modelled from the spec: `Hostname.Matches(other)` is literal equality,
or the needle is `*.x` and the other ends in `.x` or equals `x`
(`Hostname.Matches` is in `model/service.go`, not among the sources). -/
def hostnameMatches (needle other : Hostname) : Bool :=
  needle == other ||
    (match needle.data with
     | '*' :: '.' :: x => ('.' :: x).isSuffixOf other.data || other.data == x
     | _ => false)

/-- The sort key realizing the specificity order, modelled from the spec:
literal before wildcard, then longer names first, then lexicographic
tie-break (the `Hostnames` sort order is in `model/service.go`, not among
the sources). -/
def hostKey (h : Hostname) : Lex (Bool × Lex (OrderDual Nat × List Char)) :=
  toLex (h.data.head? == some '*', toLex (OrderDual.toDual h.data.length, h.data))

/-- The specificity (non-strict) order on hostnames: most specific first. -/
def hostLE (a b : Hostname) : Prop := hostKey a ≤ hostKey b

instance : DecidableRel hostLE :=
  fun a b => inferInstanceAs (Decidable (hostKey a ≤ hostKey b))

theorem hostKey_inj {a b : Hostname} (h : hostKey a = hostKey b) : a = b := by
  have h2 := congrArg (fun x => (ofLex (ofLex x).2).2) h
  simp [hostKey] at h2
  exact String.ext h2

instance : IsTrans Hostname hostLE := ⟨fun _ _ _ h1 h2 => le_trans h1 h2⟩

instance : IsTotal Hostname hostLE := ⟨fun a b => le_total (hostKey a) (hostKey b)⟩

instance : IsAntisymm Hostname hostLE := ⟨fun _ _ h1 h2 => hostKey_inj (le_antisymm h1 h2)⟩

/-- Embeds `MostSpecificHostMatch` (model/config.go): sort the stack by
specificity and return the first element matching the needle. Go's
`sort.Sort(Hostnames(stack))` reorders the caller's slice in place; the
post-state of the slice is returned as the second component. -/
def MostSpecificHostMatch (needle : Hostname) (stack : List Hostname) :
    (Hostname × Bool) × List Hostname :=
  let sorted := stack.insertionSort hostLE
  match sorted.find? (fun h => hostnameMatches needle h) with
  | some h => ((h, true), sorted)
  | none => (("", false), sorted)

theorem mostSpecificHostMatch_snd (needle : Hostname) (stack : List Hostname) :
    (MostSpecificHostMatch needle stack).2 = stack.insertionSort hostLE := by
  unfold MostSpecificHostMatch
  dsimp only
  split <;> rfl

theorem insertionSort_perm_congr {s1 s2 : List Hostname} (hp : s1.Perm s2) :
    s1.insertionSort hostLE = s2.insertionSort hostLE := by
  refine List.eq_of_perm_of_sorted ?_ (List.sorted_insertionSort hostLE s1)
    (List.sorted_insertionSort hostLE s2)
  exact (List.perm_insertionSort hostLE s1).trans
    (hp.trans (List.perm_insertionSort hostLE s2).symm)

theorem sorted_find?_minimal {l : List Hostname} (hs : l.Sorted hostLE)
    {p : Hostname → Bool} {x : Hostname} (hf : l.find? p = some x) :
    ∀ y ∈ l, p y = true → hostLE x y := by
  induction l with
  | nil => simp at hf
  | cons a t ih =>
    rw [List.sorted_cons] at hs
    intro y hy hpy
    rw [List.find?_cons] at hf
    cases hpa : p a with
    | true =>
      rw [hpa] at hf
      have hxa : a = x := by simpa using hf
      rcases List.mem_cons.mp hy with h | h
      · subst h; rw [← hxa]; exact le_refl (hostKey y)
      · rw [← hxa]; exact hs.1 y h
    | false =>
      rw [hpa] at hf
      rcases List.mem_cons.mp hy with h | h
      · subst h; rw [hpy] at hpa; cases hpa
      · exact ih hs.2 hf y h hpy

/-! ## Shortname resolution (model/config.go) -/

/-- Embeds `ResolveShortnameToFQDN` (model/config.go): `*` and names containing a
dot are left alone; otherwise the namespace and `.svc.<domain>` are
appended. -/
def ResolveShortnameToFQDN (host : String) (meta : ConfigMeta) : Hostname :=
  if host == "*" then host
  else if !(host.data.contains '.') then
    let out := if meta.ns != "" then host ++ "." ++ meta.ns else host
    if meta.domain != "" then out ++ ".svc." ++ meta.domain else out
  else host

/-- Embeds `routing.IstioService`, restricted to the fields `ResolveHostname`
reads. -/
structure IstioService where
  name : String := ""
  ns : String := ""
  domain : String := ""
  service : String := ""
  deriving DecidableEq, Repr

/-- Embeds `ResolveHostname` (model/config.go): the explicit `Service` field wins;
otherwise compose name, namespace and domain with metadata fallbacks. -/
def ResolveHostname (meta : ConfigMeta) (svc : IstioService) : Hostname :=
  if svc.service != "" then svc.service
  else
    let out := svc.name
    let out :=
      if svc.ns != "" then out ++ "." ++ svc.ns
      else if meta.ns != "" then out ++ "." ++ meta.ns
      else out
    if svc.domain != "" then out ++ "." ++ svc.domain
    else if meta.domain != "" then out ++ ".svc." ++ meta.domain
    else out

/-! ## Authentication policy selection (model/config.go) -/

/-- Embeds `authn.TargetSelector`: a workload target with optional port
selectors. -/
structure TargetSelector where
  name : String := ""
  ports : List PortSel := []
  deriving DecidableEq, Repr

/-- Embeds `authn.Policy`, restricted to the field the query reads. -/
structure AuthnPolicy where
  targets : List TargetSelector := []
  deriving DecidableEq, Repr

/-- An authentication-policy config: metadata plus policy payload. -/
structure AuthPolicyConfig where
  meta : ConfigMeta := {}
  policy : AuthnPolicy := {}
  deriving DecidableEq, Repr

/-- Modelled from the spec: `Port.Match(selector)` matches a port selector
by name or by number (`model/service.go` is not among the sources). -/
def Port.matchSel (p : Port) (sel : PortSel) : Bool :=
  match sel with
  | .byName n => p.name == n
  | .byNumber num => p.port == num

/-- Go `strings.Split(s, sep)` for a single-character separator, on char
lists (the built-in `String.splitOn` does not reduce in the kernel). -/
def splitChar (c : Char) : List Char → List (List Char)
  | [] => [[]]
  | x :: xs =>
    let r := splitChar c xs
    if x == c then [] :: r
    else
      match r with
      | [] => [[x]]
      | y :: ys => (x :: y) :: ys

/-- The match level a policy config attains for a destination, as computed
by `AuthenticationPolicyByDestination` (model/config.go): 3 for a matching
workload target, 2 for a policy with no targets (namespace scope), 0
otherwise. -/
def authnMatchLevel (hostname : Hostname) (port : Port) (spec : AuthPolicyConfig) : Nat :=
  if spec.policy.targets.isEmpty then 2
  else if spec.policy.targets.any (fun dest =>
      hostname == ResolveHostname spec.meta { name := dest.name } &&
      (dest.ports.isEmpty || dest.ports.any (fun ps => port.matchSel ps)))
    then 3
  else 0

/-- The accumulator loop of `AuthenticationPolicyByDestination`
(model/config.go): keep the current pick unless a strictly higher match
level appears. -/
def authnPickLoop (hostname : Hostname) (port : Port) :
    List AuthPolicyConfig → Nat → Option AuthPolicyConfig → Option AuthPolicyConfig
  | [], _, cur => cur
  | spec :: rest, lvl, cur =>
    let ml := authnMatchLevel hostname port spec
    if lvl < ml then authnPickLoop hostname port rest ml (some spec)
    else authnPickLoop hostname port rest lvl cur

/-- The candidate policies for a destination hostname: `nil` for a hostname
with fewer than two dot-separated parts, otherwise the policies listed in
the namespace parsed out of the hostname (the store's `List` is modelled as
a filter over the backing list, in backing order). -/
def authnCandidates (store : List AuthPolicyConfig) (hostname : Hostname) :
    Option (List AuthPolicyConfig) :=
  match splitChar '.' hostname.data with
  | _ :: nsChars :: _ => some (store.filter (fun c => c.meta.ns == String.mk nsChars))
  | _ => none

/-- Embeds `AuthenticationPolicyByDestination` (model/config.go). -/
def AuthenticationPolicyByDestination (store : List AuthPolicyConfig)
    (hostname : Hostname) (port : Port) : Option AuthPolicyConfig :=
  match authnCandidates store hostname with
  | none => none
  | some specs => authnPickLoop hostname port specs 0 none

/-- The maximum match level attained in a candidate list. -/
def authnMaxLevel (hostname : Hostname) (port : Port) : List AuthPolicyConfig → Nat
  | [] => 0
  | spec :: rest => max (authnMatchLevel hostname port spec) (authnMaxLevel hostname port rest)

/-- The selection described by the amended claim: among the candidate
policies, the first (in store order) that attains the highest match level;
none when no candidate matches. -/
def claimedAuthnPick (store : List AuthPolicyConfig) (hostname : Hostname)
    (port : Port) : Option AuthPolicyConfig :=
  match authnCandidates store hostname with
  | none => none
  | some specs =>
    let m := authnMaxLevel hostname port specs
    if m = 0 then none
    else specs.find? (fun s => authnMatchLevel hostname port s == m)

/-! ## VirtualServices query (model/config.go) -/

/-- Embeds `model.IstioMeshGateway`: the built-in gateway of all sidecars. -/
def IstioMeshGateway : String := "mesh"

/-- The selection predicate of `VirtualServices` (model/config.go): a rule
with no gateways applies only to the mesh gateway; otherwise some listed
gateway must resolve into the given gateway set (the `mesh` name is never
expanded). -/
def vsSelected (gateways : List String) (c : Config) : Bool :=
  match c.spec with
  | .vs rule =>
    if rule.gateways.isEmpty then gateways.contains IstioMeshGateway
    else rule.gateways.any (fun g =>
      gateways.contains (ResolveShortnameToFQDN g c.meta) ||
      (g == IstioMeshGateway && gateways.contains g))
  | .other => false

/-- The in-place shortname resolution `VirtualServices` performs on a
selected rule (model/config.go): hosts, non-mesh gateway references, HTTP
match gateways, HTTP route/mirror destination hosts, and the TCP
equivalents. -/
def resolveVSSpec (meta : ConfigMeta) (rule : VirtualServiceSpec) : VirtualServiceSpec :=
  { hosts := rule.hosts.map (fun h => ResolveShortnameToFQDN h meta)
    gateways := rule.gateways.map (fun g =>
      if g != IstioMeshGateway then ResolveShortnameToFQDN g meta else g)
    http := rule.http.map (fun d =>
      { d with
        matchList := d.matchList.map (fun m =>
          { m with gateways := m.gateways.map (fun g =>
              if g != IstioMeshGateway then ResolveShortnameToFQDN g meta else g) })
        route := d.route.map (fun w =>
          { w with destination :=
              { w.destination with host := ResolveShortnameToFQDN w.destination.host meta } })
        mirror := d.mirror.map (fun mr =>
          { mr with host := ResolveShortnameToFQDN mr.host meta }) })
    tcp := rule.tcp.map (fun d =>
      { d with
        matchList := d.matchList.map (fun m =>
          { m with gateways := m.gateways.map (fun g =>
              if g != IstioMeshGateway then ResolveShortnameToFQDN g meta else g) })
        route := d.route.map (fun w =>
          { w with destination :=
              { w.destination with host := ResolveShortnameToFQDN w.destination.host meta } }) }) }

/-- Apply the in-place resolution to one config. In Go the `Config` struct
is copied into the result slice but its `Spec` is a shared pointer, so the
rewrite is visible both through the returned slice and through the
store. -/
def mutateVSConfig (c : Config) : Config :=
  match c.spec with
  | .vs rule => { c with spec := .vs (resolveVSSpec c.meta rule) }
  | .other => c

/-- Embeds `VirtualServices` (model/config.go): first component is the returned
config list, second is the post-state of the configs held by the backing
store (the specs of the selected configs are rewritten through the shared
`Spec` pointers). -/
def VirtualServices (store : List Config) (gateways : List String) :
    List Config × List Config :=
  let isSel := fun c => c.meta.ctype == "virtual-service" && vsSelected gateways c
  ((store.filter isSel).map mutateVSConfig,
   store.map (fun c => if isSel c then mutateVSConfig c else c))

/-! ## ADS per-connection state machine (proxy/envoy/v2 ads) -/

/-- The four xDS resource classes. -/
inductive XdsType where
  | cds | lds | rds | eds
  deriving DecidableEq, Repr

/-- Embeds `xdsapi.DiscoveryRequest`, restricted to the fields the handler
reads. -/
structure DiscoveryRequest where
  nodeId : String := ""
  typeUrl : XdsType := .cds
  resourceNames : List String := []
  versionInfo : String := ""
  responseNonce : String := ""
  errorDetail : Option String := none
  deriving DecidableEq, Repr

/-- The per-connection watch state of an `XdsConnection`. -/
structure ConState where
  cdsWatch : Bool := false
  ldsWatch : Bool := false
  routes : List String := []
  clusters : List String := []
  deriving DecidableEq, Repr

/-- One step of the per-message switch of `StreamAggregatedResources`
(the v2 ADS handler): the result lists the pushes performed on the stream
(each push sends responses for its type) paired with the new watch state.
A repeated CDS/LDS watch request is an ACK (nothing is sent); an RDS/EDS
request whose resource-name count equals the non-empty watched count (or is
zero while something is watched) is an ACK; otherwise the watch set is
replaced and the type is pushed. -/
def handleRequest (s : ConState) (req : DiscoveryRequest) : List XdsType × ConState :=
  match req.typeUrl with
  | .cds =>
    if s.cdsWatch then ([], s)
    else ([.cds], { s with cdsWatch := true })
  | .lds =>
    if s.ldsWatch then ([], s)
    else ([.lds], { s with ldsWatch := true })
  | .rds =>
    let routes := req.resourceNames
    if (routes.length == s.routes.length || routes.length == 0) && s.routes.length > 0
    then ([], s)
    else ([.rds], { s with routes := routes })
  | .eds =>
    let clusters := req.resourceNames
    if (clusters.length == s.clusters.length || clusters.length == 0) && s.clusters.length > 0
    then ([], s)
    else ([.eds], { s with clusters := clusters })

/-! ## Claim C1 -/

/-- Input exhibiting C1's failure: one virtual service whose host matches
no registered service, compiled against an empty service index. -/
def c1Config : Config :=
  { meta := { ctype := "virtual-service", name := "vs", ns := "default" }
    spec := .vs { hosts := ["example.com"] } }

/-- C1: refuted on the code — `translateVirtualHost` allocates its output
with `make([]GuardedHost, len(serviceByPort))` and then appends, leaving
`len(serviceByPort)` zero-valued entries (`Port = 0`, empty `Routes`) in
the list `TranslateVirtualHosts` returns, against the documented invariant
`Port > 0` and non-empty `Routes`. -/
theorem translateVirtualHosts_zero_valued_entry :
    TranslateVirtualHosts [c1Config] [] [] [] = [{}] ∧
    ({} : GuardedHost).port = 0 ∧ ({} : GuardedHost).routes = [] := by
  decide

/-! ## Claim C9 -/

/-- Input exhibiting C9's failure: one stored mesh virtual service with a
short host name and a short destination host. -/
def c9Config : Config :=
  { meta := { ctype := "virtual-service", name := "vs1", ns := "default",
              domain := "cluster.local" }
    spec := .vs { hosts := ["foo"]
                  http := [{ route := [{ destination := { host := "reviews" } }] }] } }

/-- C9: refuted on the code — `VirtualServices` rewrites the hosts,
gateway references and destination hosts of every selected config through
the `Spec` pointer shared with the store, so the stored configs change:
after the query the stored spec's host list reads
`foo.default.svc.cluster.local`, not `foo`. -/
theorem virtualServices_mutates_store :
    (VirtualServices [c9Config] [IstioMeshGateway]).2 ≠ [c9Config] ∧
    ((VirtualServices [c9Config] [IstioMeshGateway]).2.map (fun c =>
      match c.spec with
      | .vs r => r.hosts
      | .other => [])) = [["foo.default.svc.cluster.local"]] ∧
    ((VirtualServices [c9Config] [IstioMeshGateway]).2.map (fun c =>
      match c.spec with
      | .vs r => (r.http.map (fun d => d.route.map (fun w => w.destination.host))).flatten
      | .other => [])) = [["reviews.default.svc.cluster.local"]] := by
  decide

/-! ## Claim C3 -/

/-- C3: a repeated CDS or LDS watch request, and an RDS or EDS request
whose resource-name count equals the non-empty watched count, is an ACK:
the handler sends nothing on the stream and the watch state is
unchanged. -/
theorem handleRequest_ack_sends_nothing (s : ConState) (req : DiscoveryRequest) :
    (req.typeUrl = .cds → s.cdsWatch = true → handleRequest s req = ([], s)) ∧
    (req.typeUrl = .lds → s.ldsWatch = true → handleRequest s req = ([], s)) ∧
    (req.typeUrl = .rds → s.routes ≠ [] →
      req.resourceNames.length = s.routes.length → handleRequest s req = ([], s)) ∧
    (req.typeUrl = .eds → s.clusters ≠ [] →
      req.resourceNames.length = s.clusters.length → handleRequest s req = ([], s)) := by
  refine ⟨?_, ?_, ?_, ?_⟩
  · intro ht hw
    simp [handleRequest, ht, hw]
  · intro ht hw
    simp [handleRequest, ht, hw]
  · intro ht hne hlen
    have hpos : 0 < s.routes.length := List.length_pos.mpr hne
    simp [handleRequest, ht, hlen, hpos]
  · intro ht hne hlen
    have hpos : 0 < s.clusters.length := List.length_pos.mpr hne
    simp [handleRequest, ht, hlen, hpos]

/-- Witness for C3: a concrete repeated CDS watch and a concrete RDS
request with as many (different) route names as are watched are both
answered with no outbound response. -/
theorem handleRequest_ack_sends_nothing_witness :
    handleRequest { cdsWatch := true } { typeUrl := .cds } = ([], { cdsWatch := true }) ∧
    handleRequest { routes := ["r1", "r2"] }
        { typeUrl := .rds, resourceNames := ["r2", "r3"] } =
      ([], { routes := ["r1", "r2"] }) :=
  ⟨(handleRequest_ack_sends_nothing _ _).1 rfl rfl,
   (handleRequest_ack_sends_nothing _ _).2.2.1 rfl (by decide) (by decide)⟩

/-! ## Claim C5 -/

/-- A match clause that lists a gateway not in the gateway-name set, with
empty source labels. -/
def c5Match : HTTPMatchRequest := { gateways := ["g1"] }

/-- C5 counterexample: at this input the code's predicate is false while
the claimed disjunction (gateway hit OR proxy labels ⊇ source labels) is
true, because the proxy labels trivially cover the empty source labels but
the listed gateway is unknown: the claimed `iff` fails. -/
theorem sourceMatchHTTP_claim_false :
    ¬ (sourceMatchHTTP (some c5Match) [[]] [] = true ↔
       ((∃ g ∈ c5Match.gateways, ([] : List String).contains g = true) ∨
        LabelsCollection.isSupersetOf [[]] c5Match.sourceLabels = true)) := by
  decide

/-- C5 (amended): an absent match passes; a match that lists gateways
passes iff one of them is in the gateway-name set (source labels are then
ignored); only a match listing no gateways tests that the proxy labels are
a superset of its source labels. -/
theorem sourceMatchHTTP_characterization (pl : LabelsCollection) (gw : List String) :
    sourceMatchHTTP none pl gw = true ∧
    (∀ mm : HTTPMatchRequest, mm.gateways ≠ [] →
      (sourceMatchHTTP (some mm) pl gw = true ↔
        ∃ g ∈ mm.gateways, gw.contains g = true)) ∧
    (∀ mm : HTTPMatchRequest, mm.gateways = [] →
      (sourceMatchHTTP (some mm) pl gw = true ↔
        pl.isSupersetOf mm.sourceLabels = true)) := by
  refine ⟨rfl, ?_, ?_⟩
  · intro mm hne
    have hpos : 0 < mm.gateways.length := List.length_pos.mpr hne
    simp [sourceMatchHTTP, hpos, List.any_eq_true]
  · intro mm he
    simp [sourceMatchHTTP, he]

/-- Witness for C5's amended theorem: a gateway-listing match with a
matching gateway name passes, source labels notwithstanding. -/
theorem sourceMatchHTTP_characterization_witness :
    sourceMatchHTTP (some { gateways := ["g1"], sourceLabels := [("app", "x")] })
        [] ["g1"] = true ↔
      ∃ g ∈ ({ gateways := ["g1"], sourceLabels := [("app", "x")] } :
        HTTPMatchRequest).gateways, (["g1"] : List String).contains g = true :=
  (sourceMatchHTTP_characterization [] ["g1"]).2.1 _ (by decide)

/-! ## Claim C6 -/

/-- C6: destination-to-cluster resolution — a host absent from the index
blackholes; otherwise the port pinned by name or number (or else the
default port) is looked up on the service; an unknown port blackholes; a
known port yields the outbound subset key over subset, hostname and
port. -/
theorem convertDestination_resolution (d : Destination) (si : ServiceIndex)
    (defaultPort : Nat) :
    (si.lookup d.host = none →
      ConvertDestinationToCluster d si defaultPort = BlackHoleCluster) ∧
    (∀ svc, si.lookup d.host = some svc →
      (d.port = none →
        resolvedSvcPort svc d defaultPort = svc.ports.getByPort defaultPort) ∧
      (∀ n, d.port = some (.byName n) →
        resolvedSvcPort svc d defaultPort = svc.ports.get n) ∧
      (∀ num, d.port = some (.byNumber num) →
        resolvedSvcPort svc d defaultPort = svc.ports.getByPort num) ∧
      (resolvedSvcPort svc d defaultPort = none →
        ConvertDestinationToCluster d si defaultPort = BlackHoleCluster) ∧
      (∀ p, resolvedSvcPort svc d defaultPort = some p →
        ConvertDestinationToCluster d si defaultPort =
          BuildSubsetKey TrafficDirectionOutbound d.subset svc.hostname p)) := by
  refine ⟨?_, ?_⟩
  · intro h
    simp [ConvertDestinationToCluster, h]
  · intro svc hsvc
    refine ⟨?_, ?_, ?_, ?_, ?_⟩
    · intro h; simp [resolvedSvcPort, h]
    · intro n h; simp [resolvedSvcPort, h]
    · intro num h; simp [resolvedSvcPort, h]
    · intro h; simp [ConvertDestinationToCluster, hsvc, h]
    · intro p h; simp [ConvertDestinationToCluster, hsvc, h]

/-- The service used by C6's witness. -/
def c6Service : Service :=
  { hostname := "c.default.svc.cluster.local"
    ports := [{ name := "http", port := 8080, protocol := "HTTP" }] }

/-- Witness for C6: a destination pinning port 8080 on a registered
service resolves to the outbound subset key; one pinning an unknown host
blackholes. -/
theorem convertDestination_resolution_witness :
    ConvertDestinationToCluster
        { host := "c.default.svc.cluster.local", subset := "v1",
          port := some (.byNumber 8080) }
        [("c.default.svc.cluster.local", c6Service)] 80 =
      BuildSubsetKey TrafficDirectionOutbound "v1" "c.default.svc.cluster.local"
        { name := "http", port := 8080, protocol := "HTTP" } ∧
    ConvertDestinationToCluster { host := "absent.ns" } [] 80 = BlackHoleCluster :=
  ⟨((convertDestination_resolution
      { host := "c.default.svc.cluster.local", subset := "v1",
        port := some (.byNumber 8080) }
      [("c.default.svc.cluster.local", c6Service)] 80).2 c6Service
        (by decide)).2.2.2.2 _ (by decide),
   (convertDestination_resolution { host := "absent.ns" } [] 80).1 (by decide)⟩

/-! ## Claim C2 -/

/-- C2: `MostSpecificHostMatch` returns the same element and found flag on
any two stacks that are permutations of each other, and a found element
matches the needle and is minimal in the specificity order (literal before
wildcard, longer first, lexicographic tie-break) among all matching stack
elements. -/
theorem mostSpecificHostMatch_stable (needle : Hostname) (s1 s2 : List Hostname)
    (hp : s1.Perm s2) :
    (MostSpecificHostMatch needle s1).1 = (MostSpecificHostMatch needle s2).1 ∧
    ∀ res, (MostSpecificHostMatch needle s1).1 = (res, true) →
      hostnameMatches needle res = true ∧
      ∀ h ∈ s1, hostnameMatches needle h = true → hostLE res h := by
  have hsort := insertionSort_perm_congr hp
  constructor
  · unfold MostSpecificHostMatch
    dsimp only
    rw [hsort]
  · intro res hres
    unfold MostSpecificHostMatch at hres
    dsimp only at hres
    cases hf : List.find? (fun h => hostnameMatches needle h) (s1.insertionSort hostLE) with
    | none =>
      rw [hf] at hres
      exact absurd (congrArg (fun p => p.2) hres) (by simp)
    | some x =>
      rw [hf] at hres
      have hx : x = res := congrArg (fun p => p.1) hres
      subst hx
      refine ⟨List.find?_some hf, ?_⟩
      intro h hmem hmatch
      exact sorted_find?_minimal (List.sorted_insertionSort hostLE s1) hf h
        ((List.perm_insertionSort hostLE s1).mem_iff.mpr hmem) hmatch

/-- Witness for C2: swapping a two-element stack does not change the
result, and the literal match `a.b` is returned and is minimal among the
matching elements. -/
theorem mostSpecificHostMatch_stable_witness :
    (MostSpecificHostMatch "a.b" ["*.b", "a.b"]).1 =
      (MostSpecificHostMatch "a.b" ["a.b", "*.b"]).1 ∧
    (hostnameMatches "a.b" "a.b" = true ∧
      ∀ h ∈ ["*.b", "a.b"], hostnameMatches "a.b" h = true → hostLE "a.b" h) :=
  ⟨(mostSpecificHostMatch_stable "a.b" ["*.b", "a.b"] ["a.b", "*.b"]
      (List.Perm.swap "a.b" "*.b" [])).1,
   (mostSpecificHostMatch_stable "a.b" ["*.b", "a.b"] ["a.b", "*.b"]
      (List.Perm.swap "a.b" "*.b" [])).2 "a.b" (by decide)⟩

/-! ## Claim C10 -/

/-- C10: `MostSpecificHostMatch` leaves the caller's stack sorted in
place — after the call the slice holds the same hostnames reordered by
specificity; on a concrete stack supplied wildcard-first, the post-state
differs from the supplied order. -/
theorem mostSpecificHostMatch_sorts_stack :
    (∀ (needle : Hostname) (stack : List Hostname),
      (MostSpecificHostMatch needle stack).2.Perm stack ∧
      (MostSpecificHostMatch needle stack).2.Sorted hostLE) ∧
    (MostSpecificHostMatch "x.y" ["*.y", "x.y"]).2 = ["x.y", "*.y"] ∧
    (MostSpecificHostMatch "x.y" ["*.y", "x.y"]).2 ≠ ["*.y", "x.y"] := by
  refine ⟨fun needle stack => ?_, by decide, by decide⟩
  rw [mostSpecificHostMatch_snd]
  exact ⟨List.perm_insertionSort hostLE stack, List.sorted_insertionSort hostLE stack⟩

/-! ## Claim C7 -/

theorem authnMaxLevel_cons (hostname : Hostname) (port : Port)
    (spec : AuthPolicyConfig) (rest : List AuthPolicyConfig) :
    authnMaxLevel hostname port (spec :: rest) =
      max (authnMatchLevel hostname port spec) (authnMaxLevel hostname port rest) := rfl

theorem authnPickLoop_spec (hostname : Hostname) (port : Port)
    (specs : List AuthPolicyConfig) :
    ∀ (lvl : Nat) (cur : Option AuthPolicyConfig),
      (authnMaxLevel hostname port specs ≤ lvl →
        authnPickLoop hostname port specs lvl cur = cur) ∧
      (lvl < authnMaxLevel hostname port specs →
        authnPickLoop hostname port specs lvl cur =
          specs.find? (fun s =>
            authnMatchLevel hostname port s == authnMaxLevel hostname port specs)) := by
  induction specs with
  | nil =>
    intro lvl cur
    exact ⟨fun _ => rfl, fun h => absurd h (Nat.not_lt_zero _)⟩
  | cons spec rest ih =>
    intro lvl cur
    rw [authnMaxLevel_cons]
    constructor
    · intro hle
      have h1 : authnMatchLevel hostname port spec ≤ lvl :=
        le_trans (le_max_left _ _) hle
      have h2 : authnMaxLevel hostname port rest ≤ lvl :=
        le_trans (le_max_right _ _) hle
      rw [authnPickLoop]
      rw [if_neg (by omega)]
      exact (ih lvl cur).1 h2
    · intro hlt
      rw [authnPickLoop, List.find?_cons]
      by_cases hc : lvl < authnMatchLevel hostname port spec
      · rw [if_pos hc]
        by_cases hr : authnMaxLevel hostname port rest ≤ authnMatchLevel hostname port spec
        · have hm : max (authnMatchLevel hostname port spec)
              (authnMaxLevel hostname port rest) = authnMatchLevel hostname port spec := by
            omega
          rw [hm]
          have hb : (authnMatchLevel hostname port spec ==
              authnMatchLevel hostname port spec) = true := by simp
          rw [hb]
          exact (ih (authnMatchLevel hostname port spec) (some spec)).1 hr
        · push_neg at hr
          have hm : max (authnMatchLevel hostname port spec)
              (authnMaxLevel hostname port rest) = authnMaxLevel hostname port rest := by
            omega
          rw [hm]
          have hb : (authnMatchLevel hostname port spec ==
              authnMaxLevel hostname port rest) = false := by
            simp; omega
          rw [hb]
          exact (ih (authnMatchLevel hostname port spec) (some spec)).2 hr
      · rw [if_neg hc]
        push_neg at hc
        have hmr : lvl < authnMaxLevel hostname port rest := by omega
        have hm : max (authnMatchLevel hostname port spec)
            (authnMaxLevel hostname port rest) = authnMaxLevel hostname port rest := by
          omega
        rw [hm]
        have hb : (authnMatchLevel hostname port spec ==
            authnMaxLevel hostname port rest) = false := by
          simp; omega
        rw [hb]
        exact (ih lvl cur).2 hmr

/-- C7 (amended): `AuthenticationPolicyByDestination` returns the policy
with the highest matching scope tier (workload > namespace), and when
several candidates tie at the highest tier the FIRST one in the store's
list order wins — the tie is not broken by key. -/
theorem authnPolicy_first_of_highest_tier (store : List AuthPolicyConfig)
    (hostname : Hostname) (port : Port) :
    AuthenticationPolicyByDestination store hostname port =
      claimedAuthnPick store hostname port := by
  unfold AuthenticationPolicyByDestination claimedAuthnPick
  cases authnCandidates store hostname with
  | none => rfl
  | some specs =>
    dsimp only
    by_cases hm : authnMaxLevel hostname port specs = 0
    · rw [if_pos hm]
      exact (authnPickLoop_spec hostname port specs 0 none).1 (by omega)
    · rw [if_neg hm]
      exact (authnPickLoop_spec hostname port specs 0 none).2 (by omega)

/-- A namespace-scope policy named `a`. -/
def authnCfgA : AuthPolicyConfig := { meta := { ctype := "policy", name := "a", ns := "ns" } }

/-- A namespace-scope policy named `b`. -/
def authnCfgB : AuthPolicyConfig := { meta := { ctype := "policy", name := "b", ns := "ns" } }

/-- C7 counterexample: two policies tie at namespace scope; the function
returns whichever the store lists first, so permuting the store flips the
answer — the tie is not resolved deterministically by key. -/
theorem authnPolicy_tie_depends_on_store_order :
    AuthenticationPolicyByDestination [authnCfgB, authnCfgA] "svc.ns"
        { name := "http", port := 80 } = some authnCfgB ∧
    AuthenticationPolicyByDestination [authnCfgA, authnCfgB] "svc.ns"
        { name := "http", port := 80 } = some authnCfgA ∧
    authnCfgB ≠ authnCfgA := by
  decide

/-! ## Claim C8 -/

/-- The source and port predicates of a match clause, as the claim states
them: the source predicate and, when the clause pins a port, equality with
the target port. -/
def claimedRouteGuard (m : HTTPMatchRequest) (port : Nat)
    (pl : LabelsCollection) (gw : List String) : Bool :=
  sourceMatchHTTP (some m) pl gw && !(m.port != 0 && m.port != port)

/-- The route list described by the claim: rules in declaration order; a
rule with no match clauses contributes exactly one catch-all route and no
later rule contributes anything; a rule with clauses contributes one route
per clause whose source and port predicates pass. -/
def claimedRoutes (rules : List HTTPRoute) (port : Nat) (operation : String)
    (si : ServiceIndex) (pl : LabelsCollection) (gw : List String) : List EnvoyRoute :=
  match rules with
  | [] => []
  | h :: rest =>
    if h.matchList.isEmpty then [buildRoute h none port operation si]
    else
      (h.matchList.filter (fun m => claimedRouteGuard m port pl gw)).map
        (fun m => buildRoute h (some m) port operation si)
      ++ claimedRoutes rest port operation si pl gw

theorem translateRoute_none_eq (h : HTTPRoute) (port : Nat) (operation : String)
    (si : ServiceIndex) (pl : LabelsCollection) (gw : List String) :
    translateRoute h none port operation si pl gw =
      some (buildRoute h none port operation si) := rfl

theorem translateRoute_some_eq (h : HTTPRoute) (m : HTTPMatchRequest) (port : Nat)
    (operation : String) (si : ServiceIndex) (pl : LabelsCollection) (gw : List String) :
    translateRoute h (some m) port operation si pl gw =
      if claimedRouteGuard m port pl gw then some (buildRoute h (some m) port operation si)
      else none := by
  unfold translateRoute claimedRouteGuard
  cases hs : sourceMatchHTTP (some m) pl gw <;>
    cases hp : (m.port != 0 && m.port != port) <;> simp [hs, hp]

theorem filterMap_translateRoute (h : HTTPRoute) (ms : List HTTPMatchRequest)
    (port : Nat) (operation : String) (si : ServiceIndex) (pl : LabelsCollection)
    (gw : List String) :
    ms.filterMap (fun m => translateRoute h (some m) port operation si pl gw) =
      (ms.filter (fun m => claimedRouteGuard m port pl gw)).map
        (fun m => buildRoute h (some m) port operation si) := by
  induction ms with
  | nil => rfl
  | cons m rest ih =>
    rw [List.filterMap_cons, List.filter_cons, translateRoute_some_eq]
    cases hg : claimedRouteGuard m port pl gw <;> simp [hg, ih]

theorem translateRoutesLoop_eq_claimed (rules : List HTTPRoute) (port : Nat)
    (operation : String) (si : ServiceIndex) (pl : LabelsCollection)
    (gw : List String) :
    translateRoutesLoop rules port operation si pl gw =
      claimedRoutes rules port operation si pl gw := by
  induction rules with
  | nil => rfl
  | cons h rest ih =>
    unfold translateRoutesLoop claimedRoutes
    cases hme : h.matchList.isEmpty <;>
      simp [hme, translateRoute_none_eq, filterMap_translateRoute, ih]

/-- C8: `TranslateRoutes` iterates the HTTP rules in declaration order; a
rule with no match clauses contributes one catch-all route and
short-circuits every later rule; a rule with clauses contributes one route
per clause whose source and port predicates pass, silently skipping the
others; an empty result is an error. -/
theorem translateRoutes_matches_claim (meta : ConfigMeta) (rule : VirtualServiceSpec)
    (si : ServiceIndex) (port : Nat) (pl : LabelsCollection) (gw : List String) :
    TranslateRoutes { meta := meta, spec := .vs rule } si port pl gw =
      (if (claimedRoutes rule.http port meta.name si pl gw).isEmpty
       then .error "no routes matched"
       else .ok (claimedRoutes rule.http port meta.name si pl gw)) := by
  unfold TranslateRoutes
  dsimp only
  rw [translateRoutesLoop_eq_claimed]

/-! ## Claim C4 -/

theorem clusterSpec_of_match (a : RouteAction) (ws : List (String × Nat)) :
    (match ws with
     | [w] => { a with clusterSpec := ClusterSpec.cluster w.1 }
     | ws' => { a with clusterSpec := ClusterSpec.weighted ws' }).clusterSpec =
      (match ws with
       | [w] => ClusterSpec.cluster w.1
       | ws' => ClusterSpec.weighted ws') := by
  match ws with
  | [] => rfl
  | [w] => rfl
  | w1 :: w2 :: t => rfl

theorem routeActionOf_clusterSpec (i : HTTPRoute) (port : Nat) (si : ServiceIndex) :
    (routeActionOf i port si).clusterSpec =
      (match i.route.map (fun dst =>
          (ConvertDestinationToCluster dst.destination si port, normWeight dst.weight)) with
       | [w] => ClusterSpec.cluster w.1
       | ws => ClusterSpec.weighted ws) := by
  unfold routeActionOf
  dsimp only
  exact clusterSpec_of_match _ _

/-- C4 (amended): when `translateRoute` emits a route action, a single
destination collapses to a direct cluster reference (its weight, including
the 0→100 normalization, is dropped with it); for two or more destinations
a weighted-cluster set is emitted whose per-destination weight is the
declared weight with 0 normalized to 100 — so relative weights are
preserved only between destinations with nonzero weights. -/
theorem translateRoute_weights (i : HTTPRoute) (m : Option HTTPMatchRequest)
    (port : Nat) (operation : String) (si : ServiceIndex) (pl : LabelsCollection)
    (gw : List String) (r : EnvoyRoute)
    (hr : translateRoute i m port operation si pl gw = some r)
    (hre : i.redirect = none) :
    ∃ a, r.action = .routeAction a ∧
      (∀ d, i.route = [d] →
        a.clusterSpec = .cluster (ConvertDestinationToCluster d.destination si port)) ∧
      (2 ≤ i.route.length →
        a.clusterSpec = .weighted (i.route.map (fun d =>
          (ConvertDestinationToCluster d.destination si port, normWeight d.weight)))) := by
  have hb : r = buildRoute i m port operation si := by
    unfold translateRoute at hr
    split at hr
    · cases hr
    · split at hr
      · cases hr
      · exact (Option.some.inj hr).symm
  subst hb
  refine ⟨routeActionOf i port si, ?_, ?_, ?_⟩
  · simp [buildRoute, hre]
  · intro d hd
    rw [routeActionOf_clusterSpec, hd]
    rfl
  · intro hlen
    rw [routeActionOf_clusterSpec]
    rcases hroute : i.route with _ | ⟨d1, t1⟩
    · rw [hroute] at hlen; simp at hlen
    · rcases ht1 : t1 with _ | ⟨d2, t2⟩
      · rw [hroute, ht1] at hlen; simp at hlen
      · rfl

/-- A single destination with weight 0. -/
def c4Single : HTTPRoute := { route := [{ destination := { host := "d1.ns" }, weight := 0 }] }

/-- Witness for C4's amended theorem, at a single zero-weight
destination. -/
theorem translateRoute_weights_witness :
    ∃ a, (buildRoute c4Single none 80 "op" []).action = .routeAction a ∧
      (∀ d, c4Single.route = [d] →
        a.clusterSpec = .cluster (ConvertDestinationToCluster d.destination [] 80)) ∧
      (2 ≤ c4Single.route.length →
        a.clusterSpec = .weighted (c4Single.route.map (fun d =>
          (ConvertDestinationToCluster d.destination [] 80, normWeight d.weight)))) :=
  translateRoute_weights c4Single none 80 "op" [] [] [] _ rfl rfl

/-- Two destinations, one with weight 0. -/
def c4In : HTTPRoute :=
  { route := [{ destination := { host := "d1.ns" }, weight := 0 },
              { destination := { host := "d2.ns" }, weight := 50 }] }

/-- The weights of the weighted-cluster set of an emitted route. -/
def emittedWeights (r : Option EnvoyRoute) : List Nat :=
  match r with
  | some er =>
    match er.action with
    | .routeAction a =>
      match a.clusterSpec with
      | .weighted ws => ws.map (fun w => w.2)
      | .cluster _ => []
    | .redirect _ _ => []
  | none => []

/-- Proportionality of the emitted weights to the declared weights. -/
@[reducible] def ratiosPreserved (input : List Int) (output : List Nat) : Prop :=
  input.length = output.length ∧
  ∀ p ∈ input.zip output, ∀ q ∈ input.zip output,
    p.1 * (q.2 : Int) = q.1 * (p.2 : Int)

/-- C4 counterexample: with destinations weighted 0 and 50 the emitted
weighted-cluster set carries weights 100 and 50 — the zero weight is
normalized to 100 even in a multi-destination set, so the destinations'
relative weights (0 : 50) are not preserved. -/
theorem translateRoute_weights_claim_false :
    emittedWeights (translateRoute c4In none 80 "op" [] [] []) = [100, 50] ∧
    ¬ ratiosPreserved (c4In.route.map (fun d => d.weight))
        (emittedWeights (translateRoute c4In none 80 "op" [] [] [])) := by
  decide
